import Mathlib

/-!
Verification development for the Niche-Search-Engine-Job-Aggregator repository
(rust workspace with three crates: `common`, `scraper`, `server`).

The development shallowly embeds the pure content of the three source files:

* `common/src/lib.rs` — the `Job` record.
* `server/src/main.rs` — the Tantivy schema (`build_schema`), the
  index-(re)build pipeline (`create_index`), and the HTTP search handler
  (`search_handler`).  The Tantivy library calls are embedded by their
  documented semantics: an index is a committed list of documents, the doc
  store retains exactly the fields marked STORED, `TopDocs::with_limit(n)`
  returns the matching documents sorted by descending score truncated to `n`,
  and fallible library calls (`parse_query`, `searcher.search`) are supplied
  as explicit `Outcome` values so every branch of the handler is reachable.
* `scraper/src/main.rs` — the salary-extraction regex pipeline
  (`extract_salary`, embedded at the character level with the regex crate's
  leftmost-first alternation semantics) and the per-listing dedup/push loop
  of `main` (the HTML fetching and CSS-selector extraction are I/O glue; a
  `Listing` holds the raw extraction results they produce).
-/

namespace JobSearch

/-- Job record from `common/src/lib.rs`.  `i64` salaries are embedded as
`Int` (all values produced by the code are small and non-negative, so no
wrap-around point is ever reached). -/
structure Job where
  title : String
  company : String
  location : String
  description : String
  salary_raw : String
  salary_min : Option Int
  url : String
deriving DecidableEq, Repr

/-! ## Schema (server/src/main.rs, `build_schema`) -/

/-- Field value kind of a Tantivy field: text or i64. -/
inductive FieldType where
  | text
  | i64
deriving DecidableEq, Repr

/-- One Tantivy field declaration: a name plus its option flags.  `TEXT`
means indexed (tokenized) and not stored; `TEXT | STORED` additionally
stores the original value; `IntOptions::default().set_indexed()` is an
indexed, unstored i64 field. -/
structure FieldDef where
  name : String
  ftype : FieldType
  indexed : Bool
  stored : Bool
deriving DecidableEq, Repr

/-- Schema as the ordered list of declared fields. -/
abbrev Schema := List FieldDef

/-- Embedding of `build_schema`: title TEXT|STORED, company TEXT|STORED,
description TEXT, salary_min indexed i64. -/
def build_schema : Schema :=
  [ { name := "title", ftype := FieldType.text, indexed := true, stored := true }
  , { name := "company", ftype := FieldType.text, indexed := true, stored := true }
  , { name := "description", ftype := FieldType.text, indexed := true, stored := false }
  , { name := "salary_min", ftype := FieldType.i64, indexed := true, stored := false } ]

/-- Embedding of `Schema::get_field`: resolves a field name to its handle
(the position of the field in the schema), `none` when absent. -/
def get_field (s : Schema) (name : String) : Option Nat :=
  s.findIdx? (fun f => f.name = name)

/-! ## Documents (server/src/main.rs, the indexing loop) -/

/-- Value stored in a document field. -/
inductive FieldValue where
  | text (s : String)
  | i64 (n : Int)
deriving DecidableEq, Repr

/-- One (field-name, value) entry of a document, pushed by
`doc.add_text` / `doc.add_i64`. -/
structure DocField where
  field : String
  value : FieldValue
deriving DecidableEq, Repr

/-- A Tantivy `Document` as its ordered list of field entries. -/
abbrev Document := List DocField

/-- Embedding of `tantivy::Document::new()`. -/
def docNew : Document := []

/-- Embedding of `Document::add_text`. -/
def add_text (d : Document) (f : String) (s : String) : Document :=
  d ++ [{ field := f, value := FieldValue.text s }]

/-- Embedding of `Document::add_i64`. -/
def add_i64 (d : Document) (f : String) (n : Int) : Document :=
  d ++ [{ field := f, value := FieldValue.i64 n }]

/-- The document built for one job by the body of the indexing loop of
`create_index`: add title, company and description text, then the salary
value only when `salary_min` is `Some`. -/
def buildDoc (job : Job) : Document :=
  let doc := docNew
  let doc := add_text doc "title" job.title
  let doc := add_text doc "company" job.company
  let doc := add_text doc "description" job.description
  let doc :=
    match job.salary_min with
    | some salary => add_i64 doc "salary_min" salary
    | none => doc
  doc

/-- Operations issued to the `IndexWriter` by `create_index`, in order. -/
inductive WriterOp where
  | deleteAll
  | addDocument (d : Document)
  | commit
deriving DecidableEq, Repr

/-- The `for job in jobs` loop: one `add_document` per job, in order. -/
def indexJobs : List Job → List WriterOp
  | [] => []
  | job :: rest => WriterOp.addDocument (buildDoc job) :: indexJobs rest

/-- The writer-operation trace of `create_index` after the writer is
obtained: `delete_all_documents`, then the indexing loop, then one
`commit`. -/
def rebuildOps (jobs : List Job) : List WriterOp :=
  WriterOp.deleteAll :: (indexJobs jobs ++ [WriterOp.commit])

/-- Effect of one writer operation on the committed document list. -/
def applyOp (docs : List Document) : WriterOp → List Document
  | WriterOp.deleteAll => []
  | WriterOp.addDocument d => docs ++ [d]
  | WriterOp.commit => docs

/-- Effect of a writer-operation trace. -/
def applyOps (docs : List Document) (ops : List WriterOp) : List Document :=
  ops.foldl applyOp docs

/-- Documents visible after `create_index` ran its rebuild against a prior
committed state. -/
def indexDocs (prior : List Document) (jobs : List Job) : List Document :=
  applyOps prior (rebuildOps jobs)

/-- Embedding of `Document::get_first`: first value carried by the named
field. -/
def get_first (d : Document) (name : String) : Option FieldValue :=
  (d.find? (fun f => f.field = name)).map (fun f => f.value)

/-- Embedding of `Value::as_text`. -/
def asText : FieldValue → Option String
  | FieldValue.text s => some s
  | FieldValue.i64 _ => none

/-- Whether the schema marks the named field as stored. -/
def isStored (s : Schema) (name : String) : Bool :=
  match s.find? (fun f => f.name = name) with
  | some f => f.stored
  | none => false

/-- The projection of a document kept by the Tantivy doc store: exactly the
entries of fields marked STORED in the schema.  `searcher.doc` returns this
projection. -/
def storedDoc (s : Schema) (d : Document) : Document :=
  d.filter (fun f => isStored s f.field)

/-! ## create_index (server/src/main.rs, lines 73–122) -/

/-- On-disk state found at `search_index/` when `meta.json` exists: the
persisted schema and the previously committed documents. -/
structure DiskIndex where
  schema : Schema
  docs : List Document
deriving DecidableEq, Repr

/-- Result of `create_index`: the schema of the opened-or-created index and
the writer-operation trace it issued. -/
structure IndexModel where
  schema : Schema
  ops : List WriterOp
deriving DecidableEq, Repr

/-- Embedding of `create_index`.  `disk` is `some d` when
`search_index/meta.json` exists.  `Index::open_in_dir` loads the persisted
schema as-is; only `Index::create_in_dir` receives the freshly built
schema.  The four `get_field(..).unwrap()` calls panic when a name is
missing, modelled as `none`; otherwise the rebuild trace is issued.  (The
i64 `salary_raw`-free field handles are name-resolved, so `buildDoc` uses
the names directly.) -/
def create_index (disk : Option DiskIndex) (jobs : List Job) : Option IndexModel :=
  let schema := build_schema
  let idxSchema :=
    match disk with
    | some d => d.schema
    | none => schema
  match get_field idxSchema "title", get_field idxSchema "company",
        get_field idxSchema "description", get_field idxSchema "salary_min" with
  | some _, some _, some _, some _ => some { schema := idxSchema, ops := rebuildOps jobs }
  | _, _, _, _ => none

/-! ## Search handler (server/src/main.rs, lines 24–50 and 125–197) -/

/-- Hit shape serialized to the caller: exactly a title, a company and a
numeric score (the score type `σ` stands for `f32`, which the handler only
passes through, never computes with). -/
structure SearchResult (σ : Type) where
  title : String
  company : String
  score : σ
deriving DecidableEq, Repr

/-- Response shape of `GET /search`. -/
structure SearchResponse (σ : Type) where
  query : String
  total_results : Nat
  results : List (SearchResult σ)
deriving DecidableEq, Repr

/-- Query-string parameters of the endpoint (`q` is optional). -/
structure SearchParams where
  q : Option String
deriving DecidableEq, Repr

/-- Result of a fallible Tantivy call whose error payload the handler never
inspects (`parse_query`, `searcher.search`): it only branches on `Ok` vs
`Err`. -/
inductive Outcome (α : Type) where
  | ok (a : α)
  | err
deriving DecidableEq, Repr

/-- Insertion step of descending-score ordering (ties keep earlier docs
first, Tantivy's stable tie-break). -/
def insertHit {σ : Type} (lt : σ → σ → Bool) (p : σ × Nat) :
    List (σ × Nat) → List (σ × Nat)
  | [] => [p]
  | q :: rest => if lt q.1 p.1 then p :: q :: rest else q :: insertHit lt p rest

/-- Sort scored doc addresses by descending score. -/
def sortHitsDesc {σ : Type} (lt : σ → σ → Bool) :
    List (σ × Nat) → List (σ × Nat)
  | [] => []
  | p :: rest => insertHit lt p (sortHitsDesc lt rest)

/-- Embedding of the `TopDocs::with_limit(limit)` collector: all matching
documents sorted by descending score, truncated to `limit`. -/
def topDocsWithLimit {σ : Type} (lt : σ → σ → Bool) (limit : Nat)
    (matched : List (σ × Nat)) : List (σ × Nat) :=
  (sortHitsDesc lt matched).take limit

/-- Embedding of `searcher.doc(doc_address)`: look the address up in the
committed documents and return its doc-store (stored-fields-only)
projection; an out-of-range address fails. -/
def searcherDoc (docs : List Document) (addr : Nat) : Option Document :=
  (docs.get? addr).map (storedDoc build_schema)

/-- Body of the result-collection loop for one retrieved document: read the
stored `title` and `company` (falling back to "Unknown") and attach the
score. -/
def mkSearchResult {σ : Type} (d : Document) (score : σ) : SearchResult σ :=
  { title := ((get_first d "title").bind asText).getD "Unknown"
  , company := ((get_first d "company").bind asText).getD "Unknown"
  , score := score }

/-- The result-collection loop of `search_handler`: a hit per top doc whose
retrieval succeeds; failed retrievals are silently skipped. -/
def collectResults {σ : Type} (docs : List Document) :
    List (σ × Nat) → List (SearchResult σ)
  | [] => []
  | (score, addr) :: rest =>
    match searcherDoc docs addr with
    | some d => mkSearchResult d score :: collectResults docs rest
    | none => collectResults docs rest

/-- Embedding of `search_handler`.  `docs` is the committed index seen by
the acquired searcher; `parsed` is the outcome of
`state.query_parser.parse_query(&query_str)` (its payload is opaque to the
handler); `searched` is the outcome of `searcher.search(..)`, carrying on
success the full set of matching documents as (score, address) pairs, to
which the `TopDocs::with_limit(10)` collector semantics is applied.  The
handler's four exits all produce a `SearchResponse`; it can signal nothing
else to the caller. -/
def search_handler {σ : Type} (lt : σ → σ → Bool) (docs : List Document)
    (params : SearchParams) (parsed : Outcome Unit)
    (searched : Outcome (List (σ × Nat))) : SearchResponse σ :=
  let query_str := params.q.getD ""
  if query_str = "" then
    { query := query_str, total_results := 0, results := [] }
  else
    match parsed with
    | Outcome.err => { query := query_str, total_results := 0, results := [] }
    | Outcome.ok _ =>
      match searched with
      | Outcome.err => { query := query_str, total_results := 0, results := [] }
      | Outcome.ok matched =>
        let top := topDocsWithLimit lt 10 matched
        let results := collectResults docs top
        { query := query_str, total_results := results.length, results := results }

/-! ## extract_salary (scraper/src/main.rs, lines 14–35)

The regex `\$?(\d{1,3}(?:,\d{3})*|\d+)` is embedded at the character level.
The regex crate uses leftmost-first (Perl-style) match semantics: the
scanner looks for the earliest position at which the pattern matches, and
within the alternation the first branch that matches wins.  Since the first
branch `\d{1,3}(?:,\d{3})*` matches whenever a digit is present, the second
branch `\d+` is unreachable, so a match consists of an optional dollar
sign, one to three digits (greedily), then greedily repeated `,ddd` groups.
`captures_iter` yields the successive non-overlapping matches left to
right.  `\d` is embedded as an ASCII digit (the regex crate's `\d` is
Unicode-aware, which coincides with ASCII digits on every input considered
here). -/

/-- Greedily take up to `n` leading ASCII digits. -/
def takeDigitsUpTo : Nat → List Char → List Char × List Char
  | 0, l => ([], l)
  | _ + 1, [] => ([], [])
  | n + 1, c :: rest =>
    if c.isDigit then
      let p := takeDigitsUpTo n rest
      (c :: p.1, p.2)
    else ([], c :: rest)

/-- Greedily consume `(?:,\d{3})*`: repeated groups of a comma followed by
exactly three digits. -/
def commaGroups : List Char → List Char × List Char
  | ',' :: a :: b :: c :: rest =>
    if a.isDigit && b.isDigit && c.isDigit then
      let p := commaGroups rest
      (',' :: a :: b :: c :: p.1, p.2)
    else ([], ',' :: a :: b :: c :: rest)
  | l => ([], l)

/-- Match the capture group `(\d{1,3}(?:,\d{3})*|\d+)` at this position:
requires a leading digit; returns the captured characters and the suffix
after the whole match. -/
def matchGroup (l : List Char) : Option (List Char × List Char) :=
  match l with
  | c :: _ =>
    if c.isDigit then
      let d := takeDigitsUpTo 3 l
      let g := commaGroups d.2
      some (d.1 ++ g.1, g.2)
    else none
  | [] => none

/-- Attempt the whole pattern `\$?(...)` anchored at this position.  A
leading dollar sign is consumed when a digit follows the position either
way; when `$` is followed by a non-digit, both the `$`-consuming and the
empty-`\$?` paths fail, which `matchGroup rest` and `matchGroup l` both
return as `none`. -/
def tryMatchAt : List Char → Option (List Char × List Char)
  | '$' :: rest => matchGroup rest
  | l => matchGroup l

/-- Embedding of `captures_iter`: scan left to right; at the first position
where the pattern matches, yield the capture and resume after the match.
`fuel` bounds the recursion and is initially the string length (every step
consumes at least one character). -/
def scanCaptures : Nat → List Char → List (List Char)
  | 0, _ => []
  | _ + 1, [] => []
  | fuel + 1, c :: cs =>
    match tryMatchAt (c :: cs) with
    | some (cap, rest) => cap :: scanCaptures fuel rest
    | none => scanCaptures fuel cs

/-- Numeric value of a list of ASCII digits. -/
def digitsToNat (l : List Char) : Nat :=
  l.foldl (fun n c => 10 * n + (c.toNat - 48)) 0

/-- Embedding of `str::parse::<i64>` on a comma-stripped capture: fails on
the empty string or on overflow past `i64::MAX`, otherwise the value. -/
def parseNum (l : List Char) : Option Int :=
  if l.isEmpty then none
  else if digitsToNat l ≤ 9223372036854775807 then some (digitsToNat l) else none

/-- The `for cap in re.captures_iter(..)` loop: strip non-digits from the
capture, parse it, and return the first value of at least 1000; smaller or
unparseable captures are skipped. -/
def firstSalary : List (List Char) → Option Int
  | [] => none
  | cap :: rest =>
    let clean_number := cap.filter (fun c => c.isDigit)
    match parseNum clean_number with
    | some num => if num ≥ 1000 then some num else firstSalary rest
    | none => firstSalary rest

/-- Embedding of `extract_salary`. -/
def extract_salary (salary_raw : String) : Option Int :=
  firstSalary (scanCaptures salary_raw.length salary_raw.toList)

/-! ## Scraper main loop (scraper/src/main.rs, lines 54–148)

A `Listing` is one element selected by `job_selector`, holding the raw
results of the CSS-selector extraction (the `next()`-and-text part, which
is HTML glue): the optional title, company and headquarters text, the
optional `href` attribute of the link, and the element's full text.  The
input list models the concatenation of the listings of all fetched category
pages in order (a page whose fetch fails contributes none), processed
against one `seen_urls` set. -/
structure Listing where
  title : Option String
  company : Option String
  location : Option String
  href : Option String
  full_text : String
deriving DecidableEq, Repr

/-- Resolution of the job URL from the link's `href`: absolute URLs pass
through, relative ones are prefixed with the site origin, a missing link
yields "No URL". -/
def listingUrl (l : Listing) : String :=
  match l.href with
  | some href => if href.startsWith "http" then href else "https://weworkremotely.com" ++ href
  | none => "No URL"

/-- The `Job` struct built for one listing.  The struct literal in the
source omits the `salary_raw` field of `common::Job` (as written it does
not compile); the in-scope `salary_raw` value is supplied for it. -/
def mkJob (l : Listing) : Job :=
  let title := (l.title.map String.trim).getD "Unknown Title"
  let company := (l.company.map String.trim).getD "Unknown Company"
  let location := (l.location.map String.trim).getD "Remote"
  let job_url := listingUrl l
  let full_text := l.full_text
  let salary_raw := full_text
  let salary_min := extract_salary salary_raw
  { title := title
  , company := company
  , location := location
  , description := ((salary_raw.trim).replace "\n" " ").replace "  " " "
  , salary_raw := salary_raw
  , salary_min := salary_min
  , url := job_url }

/-- The per-listing body of the scraper's main loop: skip a listing whose
resolved URL was already seen, otherwise record the URL and push the job
when its title is valid. -/
def scrapeGo : List Listing → List String → List Job → List Job
  | [], _, jobs => jobs
  | l :: rest, seen_urls, jobs =>
    let job_url := listingUrl l
    if job_url ∈ seen_urls then
      scrapeGo rest seen_urls jobs
    else
      let seen_urls := job_url :: seen_urls
      let job := mkJob l
      if job.title ≠ "Unknown Title" ∧ job.title ≠ "" then
        scrapeGo rest seen_urls (jobs ++ [job])
      else
        scrapeGo rest seen_urls jobs

/-- The job list the scraper accumulates over all listings of all pages. -/
def scraper_main (listings : List Listing) : List Job :=
  scrapeGo listings [] []

/-! ## Concrete instances used by witnesses and counterexamples -/

/-- Boolean strict order on `Int`, used to instantiate the score type in
closed statements. -/
def intLtB (a b : Int) : Bool := decide (a < b)

/-- A concrete job (the first job of the spec's test scenario). -/
def sampleJob : Job :=
  { title := "Backend Engineer"
  , company := "Acme"
  , location := "Remote"
  , description := "Build APIs"
  , salary_raw := "$90,000 or more"
  , salary_min := some 90000
  , url := "https://example.com/backend-engineer" }

/-- A persisted schema that differs from `build_schema` (its `description`
field is additionally STORED) while declaring the same four field names. -/
def mismatchedSchema : Schema :=
  [ { name := "title", ftype := FieldType.text, indexed := true, stored := true }
  , { name := "company", ftype := FieldType.text, indexed := true, stored := true }
  , { name := "description", ftype := FieldType.text, indexed := true, stored := true }
  , { name := "salary_min", ftype := FieldType.i64, indexed := true, stored := false } ]

/-! ## Theorems -/

/-- C4: a search request whose `q` parameter is absent or empty returns the
successful response with `total_results = 0` and empty `results`, whatever
the index contents and whatever the parse and search outcomes would have
been; the handler's return type admits no error signal. -/
theorem empty_query_empty_result {σ : Type} (lt : σ → σ → Bool)
    (docs : List Document) (parsed : Outcome Unit)
    (searched : Outcome (List (σ × Nat))) :
    search_handler lt docs { q := none } parsed searched
      = { query := "", total_results := 0, results := [] }
  ∧ search_handler lt docs { q := some "" } parsed searched
      = { query := "", total_results := 0, results := [] } :=
  ⟨rfl, rfl⟩

/-- C5: whenever `parse_query` fails, the handler returns the successful
empty result set carrying the query back, with `total_results = 0` and no
results, for every query string and every index state; no fault propagates
to the caller. -/
theorem parse_failure_empty_result {σ : Type} (lt : σ → σ → Bool)
    (docs : List Document) (q : String)
    (searched : Outcome (List (σ × Nat))) :
    search_handler lt docs { q := some q } Outcome.err searched
      = { query := q, total_results := 0, results := [] } := by
  by_cases h : q = ""
  · subst h; rfl
  · simp [search_handler, h]

/-- C1 counterexample: when `searcher.search` fails with an I/O error the
handler's response is byte-for-byte the same empty-successful
`SearchResponse` that a parse failure produces — no `IndexReadError` or any
other failure signal reaches the caller, refuting the claim at the concrete
query "rust" over an empty index. -/
theorem io_error_response_equals_parse_failure_cex :
    search_handler intLtB [] { q := some "rust" } (Outcome.ok ()) Outcome.err
      = search_handler intLtB [] { q := some "rust" } Outcome.err (Outcome.ok [])
  ∧ search_handler intLtB [] { q := some "rust" } (Outcome.ok ()) Outcome.err
      = { query := "rust", total_results := 0, results := [] } :=
  ⟨rfl, rfl⟩

/-- C1 amended: on an I/O failure during search execution the handler
returns the empty successful response, identical to the response of a parse
failure; the caller cannot distinguish the two outcomes. -/
theorem io_error_yields_empty_success {σ : Type} (lt : σ → σ → Bool)
    (docs : List Document) (q : String)
    (searched : Outcome (List (σ × Nat))) :
    search_handler lt docs { q := some q } (Outcome.ok ()) Outcome.err
      = { query := q, total_results := 0, results := [] }
  ∧ search_handler lt docs { q := some q } (Outcome.ok ()) Outcome.err
      = search_handler lt docs { q := some q } Outcome.err searched := by
  by_cases h : q = ""
  · subst h; exact ⟨rfl, rfl⟩
  · constructor <;> simp [search_handler, h]

/-- C3 counterexample: `create_index` opens an existing index whose
persisted schema differs from the expected `build_schema` (here the
`description` field is additionally stored) and proceeds to issue the full
ingestion trace over it instead of failing with a schema-mismatch error. -/
theorem open_ignores_persisted_schema_cex :
    mismatchedSchema ≠ build_schema
  ∧ create_index (some { schema := mismatchedSchema, docs := [] }) [sampleJob]
      = some { schema := mismatchedSchema, ops := rebuildOps [sampleJob] } :=
  ⟨by decide, rfl⟩

/-- C3 amended: when a prior index exists at the path, `create_index` opens
it with whatever schema was persisted and performs no compatibility check
against the schema the process expects; it proceeds to ingest whenever the
four field names resolve in the persisted schema (and panics on a missing
name, modelled as `none`), never comparing field options or reporting a
schema mismatch. -/
theorem open_uses_persisted_schema_unchecked (d : DiskIndex) (jobs : List Job) :
    create_index (some d) jobs =
      if ((get_field d.schema "title").isSome && (get_field d.schema "company").isSome
          && (get_field d.schema "description").isSome
          && (get_field d.schema "salary_min").isSome)
      then some { schema := d.schema, ops := rebuildOps jobs }
      else none := by
  unfold create_index
  cases h1 : get_field d.schema "title" <;>
    cases h2 : get_field d.schema "company" <;>
      cases h3 : get_field d.schema "description" <;>
        cases h4 : get_field d.schema "salary_min" <;>
          simp [h1, h2, h3, h4]

/-- Recognizer for the commit operation. -/
def isCommit : WriterOp → Bool
  | WriterOp.commit => true
  | _ => false

/-- Payload of an `add_document` operation. -/
def addedDocument : WriterOp → Option Document
  | WriterOp.addDocument d => some d
  | _ => none

theorem indexJobs_countP_commit (jobs : List Job) :
    (indexJobs jobs).countP isCommit = 0 := by
  induction jobs with
  | nil => rfl
  | cons job rest ih => simp [indexJobs, List.countP_cons, isCommit, ih]

theorem indexJobs_filterMap (jobs : List Job) :
    (indexJobs jobs).filterMap addedDocument = jobs.map buildDoc := by
  induction jobs with
  | nil => rfl
  | cons job rest ih => simp [indexJobs, List.filterMap_cons, addedDocument, ih]

theorem applyOps_indexJobs (jobs : List Job) :
    ∀ docs : List Document, applyOps docs (indexJobs jobs) = docs ++ jobs.map buildDoc := by
  induction jobs with
  | nil => intro docs; simp [indexJobs, applyOps]
  | cons job rest ih =>
    intro docs
    simp [indexJobs, applyOps, List.foldl_cons] at ih ⊢
    simpa [applyOp] using ih (docs ++ [buildDoc job])

theorem indexDocs_eq_map (prior : List Document) (jobs : List Job) :
    indexDocs prior jobs = jobs.map buildDoc := by
  have h := applyOps_indexJobs jobs []
  simp only [indexDocs, rebuildOps, applyOps, List.foldl_cons, List.foldl_append] at *
  simpa [applyOp] using h

/-- C2: the rebuild path of `create_index` first issues `deleteAll`, ends
with a single `commit` after every insertion, inserts exactly one document
per job in sequence order, so the committed index is exactly the per-job
documents whatever was committed before; and each job's document carries
its title, company and description, with the `salary_min` entry present
exactly when the job has one. -/
theorem rebuild_trace_spec (jobs : List Job) :
    (rebuildOps jobs).head? = some WriterOp.deleteAll
  ∧ (rebuildOps jobs).getLast? = some WriterOp.commit
  ∧ (rebuildOps jobs).countP isCommit = 1
  ∧ (rebuildOps jobs).filterMap addedDocument = jobs.map buildDoc
  ∧ (∀ prior : List Document, indexDocs prior jobs = jobs.map buildDoc)
  ∧ (∀ job : Job,
        get_first (buildDoc job) "title" = some (FieldValue.text job.title)
      ∧ get_first (buildDoc job) "company" = some (FieldValue.text job.company)
      ∧ get_first (buildDoc job) "description" = some (FieldValue.text job.description)
      ∧ get_first (buildDoc job) "salary_min" = job.salary_min.map FieldValue.i64) := by
  refine ⟨rfl, ?_, ?_, ?_, fun prior => indexDocs_eq_map prior jobs, ?_⟩
  · show (WriterOp.deleteAll :: (indexJobs jobs ++ [WriterOp.commit])).getLast? = some WriterOp.commit
    rw [show WriterOp.deleteAll :: (indexJobs jobs ++ [WriterOp.commit])
          = (WriterOp.deleteAll :: indexJobs jobs) ++ [WriterOp.commit] from rfl,
      List.getLast?_concat]
  · simp [rebuildOps, List.countP_cons, List.countP_append, isCommit,
      indexJobs_countP_commit]
  · simp [rebuildOps, List.filterMap_cons, List.filterMap_append, addedDocument,
      indexJobs_filterMap]
  · intro job
    rcases job with ⟨t, c, loc, desc, sraw, smin, url⟩
    cases smin <;> exact ⟨rfl, rfl, rfl, rfl⟩

theorem length_insertHit {σ : Type} (lt : σ → σ → Bool) (p : σ × Nat)
    (l : List (σ × Nat)) : (insertHit lt p l).length = l.length + 1 := by
  induction l with
  | nil => rfl
  | cons q rest ih => by_cases h : lt q.1 p.1 <;> simp [insertHit, h, ih]

theorem length_sortHitsDesc {σ : Type} (lt : σ → σ → Bool) (l : List (σ × Nat)) :
    (sortHitsDesc lt l).length = l.length := by
  induction l with
  | nil => rfl
  | cons p rest ih => simp [sortHitsDesc, length_insertHit, ih]

theorem mem_insertHit {σ : Type} (lt : σ → σ → Bool) (p r : σ × Nat)
    (l : List (σ × Nat)) : r ∈ insertHit lt p l → r = p ∨ r ∈ l := by
  induction l with
  | nil => intro h; rw [insertHit] at h; exact Or.inl (List.mem_singleton.mp h)
  | cons q rest ih =>
    intro h
    by_cases hc : lt q.1 p.1
    · rw [insertHit, if_pos hc] at h
      exact List.mem_cons.mp h
    · rw [insertHit, if_neg hc] at h
      rcases List.mem_cons.mp h with h | h
      · exact Or.inr (by simp [h])
      · rcases ih h with h' | h'
        · exact Or.inl h'
        · exact Or.inr (List.mem_cons_of_mem q h')

theorem mem_sortHitsDesc {σ : Type} (lt : σ → σ → Bool) (r : σ × Nat)
    (l : List (σ × Nat)) : r ∈ sortHitsDesc lt l → r ∈ l := by
  induction l with
  | nil => intro h; rw [sortHitsDesc] at h; exact absurd h (List.not_mem_nil r)
  | cons p rest ih =>
    intro h
    rcases mem_insertHit lt p r (sortHitsDesc lt rest) h with h' | h'
    · simp [h']
    · exact List.mem_cons_of_mem p (ih h')

theorem collectResults_length_le {σ : Type} (docs : List Document)
    (l : List (σ × Nat)) : (collectResults docs l).length ≤ l.length := by
  induction l with
  | nil => simp [collectResults]
  | cons p rest ih =>
    rcases p with ⟨score, addr⟩
    cases hd : searcherDoc docs addr <;> simp [collectResults, hd] <;> omega

theorem collectResults_length_of_valid {σ : Type} (docs : List Document)
    (l : List (σ × Nat)) (h : ∀ p ∈ l, p.2 < docs.length) :
    (collectResults docs l).length = l.length := by
  induction l with
  | nil => rfl
  | cons p rest ih =>
    rcases p with ⟨score, addr⟩
    have haddr : addr < docs.length := h (score, addr) (List.mem_cons_self _ _)
    have hget : docs.get? addr = some (docs.get ⟨addr, haddr⟩) := List.get?_eq_get haddr
    have hd : searcherDoc docs addr = some (storedDoc build_schema (docs.get ⟨addr, haddr⟩)) := by
      rw [searcherDoc, hget]; rfl
    simp only [collectResults, hd, List.length_cons]
    rw [ih (fun p hp => h p (List.mem_cons_of_mem _ hp))]

theorem storedDoc_buildDoc (job : Job) :
    storedDoc build_schema (buildDoc job)
      = [ { field := "title", value := FieldValue.text job.title }
        , { field := "company", value := FieldValue.text job.company } ] := by
  rcases job with ⟨t, c, loc, desc, sraw, smin, url⟩
  cases smin <;> rfl

theorem mkSearchResult_stored {σ : Type} (job : Job) (score : σ) :
    mkSearchResult (storedDoc build_schema (buildDoc job)) score
      = { title := job.title, company := job.company, score := score } := by
  rw [storedDoc_buildDoc]
  rfl

theorem collectResults_over_index {σ : Type} (jobs : List Job) (l : List (σ × Nat)) :
    ∀ r ∈ collectResults (jobs.map buildDoc) l,
      ∃ j, j ∈ jobs ∧ r.title = j.title ∧ r.company = j.company := by
  induction l with
  | nil => intro r hr; exact absurd hr (List.not_mem_nil r)
  | cons p rest ih =>
    rcases p with ⟨score, addr⟩
    intro r hr
    cases hd : searcherDoc (jobs.map buildDoc) addr with
    | none =>
      rw [collectResults, hd] at hr
      exact ih r hr
    | some d =>
      rw [collectResults, hd] at hr
      rcases List.mem_cons.mp hr with h | h
      · rcases Option.map_eq_some'.mp hd with ⟨d0, hget, hstored⟩
        rw [List.get?_map] at hget
        rcases Option.map_eq_some'.mp hget with ⟨j, hj, hbuild⟩
        refine ⟨j, List.get?_mem hj, ?_⟩
        subst hbuild
        rw [h, ← hstored, mkSearchResult_stored]
        exact ⟨rfl, rfl⟩
      · exact ih r h

theorem search_handler_shape {σ : Type} (lt : σ → σ → Bool) (docs : List Document)
    (params : SearchParams) (parsed : Outcome Unit)
    (searched : Outcome (List (σ × Nat))) :
    search_handler lt docs params parsed searched
      = { query := params.q.getD "", total_results := 0, results := [] }
  ∨ ∃ matched, searched = Outcome.ok matched
      ∧ search_handler lt docs params parsed searched
        = { query := params.q.getD ""
          , total_results := (collectResults docs (topDocsWithLimit lt 10 matched)).length
          , results := collectResults docs (topDocsWithLimit lt 10 matched) } := by
  by_cases h : params.q.getD "" = ""
  · left; simp [search_handler, h]
  · cases parsed with
    | err => left; simp [search_handler, h]
    | ok u =>
      cases searched with
      | err => left; simp [search_handler, h]
      | ok m => right; exact ⟨m, rfl, by simp [search_handler, h]⟩

theorem search_handler_success {σ : Type} (lt : σ → σ → Bool) (docs : List Document)
    (q : String) (hq : ¬ q = "") (matched : List (σ × Nat)) :
    search_handler lt docs { q := some q } (Outcome.ok ()) (Outcome.ok matched)
      = { query := q
        , total_results := (collectResults docs (topDocsWithLimit lt 10 matched)).length
        , results := collectResults docs (topDocsWithLimit lt 10 matched) } := by
  simp [search_handler, hq]

/-- C9: in every branch of the handler — absent or empty query, parse
failure, search failure, and success alike — `total_results` equals the
length of the `results` list, and is therefore never more than the
hard-coded hit limit of 10: it is never the total number of matching
documents beyond that cap. -/
theorem total_results_matches_length {σ : Type} (lt : σ → σ → Bool)
    (docs : List Document) (params : SearchParams) (parsed : Outcome Unit)
    (searched : Outcome (List (σ × Nat))) :
    (search_handler lt docs params parsed searched).total_results
      = (search_handler lt docs params parsed searched).results.length
  ∧ (search_handler lt docs params parsed searched).total_results ≤ 10 := by
  rcases search_handler_shape lt docs params parsed searched with h | ⟨m, _, h⟩
  · rw [h]; exact ⟨rfl, Nat.zero_le 10⟩
  · rw [h]
    refine ⟨rfl, ?_⟩
    calc (collectResults docs (topDocsWithLimit lt 10 m)).length
        ≤ (topDocsWithLimit lt 10 m).length := collectResults_length_le docs _
      _ ≤ 10 := by
          rw [topDocsWithLimit, List.length_take]
          omega

/-- C6: every hit the handler returns over an index rebuilt from `jobs`
(whatever was committed before) carries the exact original `title` and
`company` of one of the indexed jobs — the stored values, not a tokenized
form; the doc store holds exactly the `title` and `company` entries of each
job's document, so retrieving `description` from any retrievable document
yields nothing, whichever field produced the match. -/
theorem hits_expose_exact_stored_fields {σ : Type} (lt : σ → σ → Bool)
    (prior : List Document) (jobs : List Job) (params : SearchParams)
    (parsed : Outcome Unit) (searched : Outcome (List (σ × Nat))) :
    ((search_handler lt (indexDocs prior jobs) params parsed searched).results).Forall
      (fun r => ∃ j, j ∈ jobs ∧ r.title = j.title ∧ r.company = j.company)
  ∧ (∀ addr : Nat,
      (searcherDoc (indexDocs prior jobs) addr).bind (fun d => get_first d "description")
        = none)
  ∧ (∀ job : Job,
      storedDoc build_schema (buildDoc job)
        = [ { field := "title", value := FieldValue.text job.title }
          , { field := "company", value := FieldValue.text job.company } ]) := by
  refine ⟨?_, ?_, storedDoc_buildDoc⟩
  · rw [List.forall_iff_forall_mem]
    rcases search_handler_shape lt (indexDocs prior jobs) params parsed searched
      with h | ⟨m, _, h⟩
    · rw [h]; intro r hr; exact absurd hr (List.not_mem_nil r)
    · rw [h]
      intro r hr
      rw [indexDocs_eq_map] at hr
      exact collectResults_over_index jobs _ r hr
  · intro addr
    rw [indexDocs_eq_map]
    cases hget : (jobs.map buildDoc).get? addr with
    | none => rw [searcherDoc, hget]; rfl
    | some d0 =>
      rw [List.get?_map] at hget
      rcases Option.map_eq_some'.mp hget with ⟨j, hj, hbuild⟩
      rw [searcherDoc, List.get?_map, hj]
      show get_first (storedDoc build_schema (buildDoc j)) "description" = none
      rw [storedDoc_buildDoc]
      rfl

/-- C7: over a non-empty query that reaches search execution, the handler
returns at most 10 hits — 10 being the hard-coded `TopDocs` limit, the
caller having no way to specify another — and returns fewer than 10 only
when fewer documents matched the query (the hypothesis that every match
addresses a committed document reflects the searcher handing out only
valid doc addresses). -/
theorem limit_respected {σ : Type} (lt : σ → σ → Bool) (docs : List Document)
    (q : String) (matched : List (σ × Nat)) (hq : ¬ q = "")
    (hvalid : ∀ p ∈ matched, p.2 < docs.length) :
    ((search_handler lt docs { q := some q } (Outcome.ok ())
        (Outcome.ok matched)).results).length ≤ 10
  ∧ (((search_handler lt docs { q := some q } (Outcome.ok ())
        (Outcome.ok matched)).results).length < 10
      → matched.length < 10) := by
  rw [search_handler_success lt docs q hq matched]
  have hlen : (collectResults docs (topDocsWithLimit lt 10 matched)).length
      = min 10 matched.length := by
    rw [collectResults_length_of_valid, topDocsWithLimit, List.length_take,
      length_sortHitsDesc]
    intro p hp
    exact hvalid p (mem_sortHitsDesc lt p matched (List.take_subset _ _ hp))
  rw [hlen]
  omega

/-- Witness for C7 at a concrete one-job index, one match and the query
"backend". -/
theorem limit_respected_witness :
    ((search_handler intLtB [buildDoc sampleJob] { q := some "backend" } (Outcome.ok ())
        (Outcome.ok [((5 : Int), 0)])).results).length ≤ 10
  ∧ (((search_handler intLtB [buildDoc sampleJob] { q := some "backend" } (Outcome.ok ())
        (Outcome.ok [((5 : Int), 0)])).results).length < 10
      → ([((5 : Int), 0)] : List (Int × Nat)).length < 10) :=
  limit_respected intLtB [buildDoc sampleJob] "backend" [((5 : Int), 0)]
    (by decide) (by decide)

theorem mkJob_url (l : Listing) : (mkJob l).url = listingUrl l := rfl

theorem scrapeGo_urls_nodup (listings : List Listing) :
    ∀ (seen : List String) (jobs : List Job),
      (jobs.map Job.url).Nodup → (∀ j ∈ jobs, j.url ∈ seen) →
      ((scrapeGo listings seen jobs).map Job.url).Nodup := by
  induction listings with
  | nil => intro seen jobs h1 _; exact h1
  | cons l rest ih =>
    intro seen jobs h1 h2
    simp only [scrapeGo]
    by_cases hmem : listingUrl l ∈ seen
    · rw [if_pos hmem]
      exact ih seen jobs h1 h2
    · rw [if_neg hmem]
      by_cases hvalid : (mkJob l).title ≠ "Unknown Title" ∧ (mkJob l).title ≠ ""
      · rw [if_pos hvalid]
        apply ih
        · rw [List.map_append, List.nodup_append]
          refine ⟨h1, List.nodup_singleton _, ?_⟩
          intro u hu hu'
          rw [List.map_singleton, List.mem_singleton] at hu'
          rcases List.mem_map.mp hu with ⟨j, hj, hurl⟩
          apply hmem
          rw [← mkJob_url l, ← hu', ← hurl]
          exact h2 j hj
        · intro j hj
          rcases List.mem_append.mp hj with hj | hj
          · exact List.mem_cons_of_mem _ (h2 j hj)
          · rw [List.mem_singleton] at hj
            rw [hj, mkJob_url]
            exact List.mem_cons_self _ _
      · rw [if_neg hvalid]
        apply ih _ _ h1
        intro j hj
        exact List.mem_cons_of_mem _ (h2 j hj)

/-- C8: the job list the scraper produces contains no two records with the
same URL: a listing whose resolved URL was already seen is skipped, with
one `seen_urls` set carried across all category pages (including the
"No URL" fallback for listings without a link). -/
theorem scraped_urls_nodup (listings : List Listing) :
    ((scraper_main listings).map Job.url).Nodup :=
  scrapeGo_urls_nodup listings [] []
    List.nodup_nil (fun j hj => absurd hj (List.not_mem_nil j))

/-- Fidelity check: the embedded `extract_salary` reproduces the repository
unit tests that actually pass — the comma-grouped forms and the no-number
form. -/
theorem extract_salary_matches_passing_tests :
    extract_salary "$50,000 - $70,000" = some 50000
  ∧ extract_salary "Competitive salary" = none
  ∧ extract_salary "$120,000/year" = some 120000 :=
  ⟨rfl, rfl, rfl⟩

/-- C10: evaluation of `extract_salary` at the repository's own unit-test
input `"Salary: 60000 USD"` (test `test_extract_salary_without_dollar_sign`
asserts `Some(60000)`).  The leftmost-first alternation
`\d{1,3}(?:,\d{3})*|\d+` splits the plain five-digit number into the
captures "600" and "00", both below 1000, so the code returns `None` and
never yields the number-shaped substring "60000" the claim (and the test)
describe. -/
theorem extract_salary_misses_plain_number :
    extract_salary "Salary: 60000 USD" = none
  ∧ scanCaptures ("Salary: 60000 USD").length ("Salary: 60000 USD").toList
      = [['6', '0', '0'], ['0', '0']] :=
  ⟨rfl, rfl⟩

end JobSearch
